import Mathlib

/-!
Verification development for the Jakarta Exhaustion Trading System
(`src/core/analytics_engine.py`, `src/core/risk_system.py`,
`src/core/execution_handler.py`, `src/core/session_manager.py`).

Prices, volumes, indicator values and scores are embedded as rationals
(`ℚ`); Python float arithmetic on these code paths is plain field
arithmetic (the one NaN/inf site, the wick-ratio column, is handled
explicitly by the source and modelled explicitly below).  Stateful
classes are embedded as explicit state-passing over structures; a method
that can raise returns `Option`.  The `pandas_ta` indicator calls
(`ta.ema`, `ta.rsi`, `ta.atr`, `ta.sma`) are external library calls, not
code of this repository; they are abstracted as a parameter
(`IndicatorLib`) producing per-bar optional values (`none` models NaN),
exactly how the source consumes them.
-/

/-- One OHLCV bar (a row of the raw candle DataFrame).  `openP` models the
`open` column (`open` is a Lean keyword). -/
structure Bar where
  openP : ℚ
  high : ℚ
  low : ℚ
  close : ℚ
  volume : ℚ
deriving DecidableEq

/-- A row of the indicator-augmented DataFrame: the bar columns plus the
columns added by `AnalyticsEngine.calculate_indicators`.  `wick` models
the `wick_ratio` column. -/
structure IndRow where
  openP : ℚ
  high : ℚ
  low : ℚ
  close : ℚ
  volume : ℚ
  ema5 : ℚ
  rsi : ℚ
  vwap : ℚ
  atr : ℚ
  volume_sma20 : ℚ
  wick : ℚ
deriving DecidableEq

/-- The decision thresholds consumed by the analytics engine
(`config/thresholds.yaml` keys).  `wick_limit` models the `wick_ratio`
threshold key. -/
structure Thresholds where
  rsi_threshold : ℚ
  ema_distance : ℚ
  volume_spike : ℚ
  wick_limit : ℚ
  vwap_deviation : ℚ
  liquidation_proximity : ℚ
deriving DecidableEq

/-- The external `pandas_ta` indicator functions used at
`analytics_engine.py:33-53`.  Each returns one optional value per input
position; `none` models NaN (the warm-up rows that `dropna()` removes).
`ema n closes`, `rsi n closes`, `sma n volumes`; `atr n highs lows
closes`. -/
structure IndicatorLib where
  ema : ℕ → List ℚ → List (Option ℚ)
  rsi : ℕ → List ℚ → List (Option ℚ)
  atr : ℕ → List ℚ → List ℚ → List ℚ → List (Option ℚ)
  sma : ℕ → List ℚ → List (Option ℚ)

/-- The wick-ratio value of one bar, `analytics_engine.py:55-60`:
`(high - close) / (high - low)`, with the division-by-zero results
(`±inf` from `x/0`, NaN from `0/0`) replaced by `0`. -/
def wickValue (b : Bar) : ℚ :=
  if b.high - b.low = 0 then 0 else (b.high - b.close) / (b.high - b.low)

/-- The cumulative VWAP column, `analytics_engine.py:38-42`: running
cumulative (typical price × volume) over running cumulative volume,
where typical price = (high + low + close) / 3. -/
def vwapList (df : List Bar) : List ℚ :=
  let tpv := df.map (fun b => ((b.high + b.low + b.close) / 3) * b.volume)
  let vols := df.map (fun b => b.volume)
  (List.range df.length).map (fun i =>
    ((tpv.take (i + 1)).foldl (· + ·) 0) / ((vols.take (i + 1)).foldl (· + ·) 0))

/-- The augmentation step of `calculate_indicators` for a long-enough
series (`analytics_engine.py:31-70`): add the six indicator columns and
`dropna()` the rows where any of them is undefined. -/
def augmentRows (lib : IndicatorLib) (df : List Bar) : List IndRow :=
  let closes := df.map (fun b => b.close)
  let ema5s := lib.ema 5 closes
  let rsis := lib.rsi 14 closes
  let atrs := lib.atr 14 (df.map (fun b => b.high)) (df.map (fun b => b.low)) closes
  let smas := lib.sma 20 (df.map (fun b => b.volume))
  let vwaps := vwapList df
  (List.range df.length).filterMap (fun i =>
    match df[i]?, ema5s[i]?, rsis[i]?, atrs[i]?, smas[i]?, vwaps[i]? with
    | some b, some (some e), some (some r), some (some a), some (some s), some vw =>
        some { openP := b.openP, high := b.high, low := b.low, close := b.close,
               volume := b.volume, ema5 := e, rsi := r, vwap := vw, atr := a,
               volume_sma20 := s, wick := wickValue b }
    | _, _, _, _, _, _ => none)

/-- Result of `calculate_indicators`: either the raw input DataFrame
returned unchanged (fewer than 20 bars) or the augmented one. -/
inductive Frame
  | raw (df : List Bar)
  | augmented (rows : List IndRow)
deriving DecidableEq

/-- `AnalyticsEngine.calculate_indicators`, `analytics_engine.py:10-70`:
fewer than 20 bars (this includes the empty frame) returns the input
unchanged, otherwise the indicator columns are added and undefined rows
dropped. -/
def calculate_indicators (lib : IndicatorLib) (df : List Bar) : Frame :=
  if df.length < 20 then Frame.raw df
  else Frame.augmented (augmentRows lib df)

/-- The first row of maximal `high` in a list, modelling
`previous_highs.idxmax()` at `analytics_engine.py:88-90` (pandas
`idxmax` returns the first occurrence of the maximum). -/
def argmaxHigh : List IndRow → Option IndRow
  | [] => none
  | r :: rs =>
      match argmaxHigh rs with
      | none => some r
      | some m => if m.high > r.high then some m else some r

/-- `AnalyticsEngine.detect_rsi_divergence`, `analytics_engine.py:72-110`:
on the last `lookback + 1` rows, compare the most recent row's high and
rsi against the first row attaining the maximum high among the preceding
`lookback` rows. -/
def detect_rsi_divergence (df : List IndRow) (lookback : ℕ) : Bool :=
  if df.length < lookback + 1 then false
  else
    let recent := df.drop (df.length - (lookback + 1))
    match argmaxHigh (recent.take lookback), recent.getLast? with
    | some ref, some cur =>
        decide (cur.rsi > 70 ∧ cur.high > ref.high ∧ cur.rsi < ref.rsi)
    | _, _ => false

/-- `AnalyticsEngine.calculate_exhaustion_score`,
`analytics_engine.py:112-157`. -/
def calculate_exhaustion_score (th : Thresholds) (df : List IndRow) (liq : ℚ) : ℚ :=
  if df.length < 20 then 0
  else
    match df.getLast? with
    | none => 0
    | some cur =>
        let rsi_component : ℚ :=
          if cur.rsi > th.rsi_threshold then min ((cur.rsi - th.rsi_threshold) * (3/10)) 3 else 0
        let wick_component : ℚ := min (cur.wick * 25) (5/2)
        let vol_over_sma : ℚ := cur.volume / cur.volume_sma20
        let volume_component : ℚ :=
          if vol_over_sma > th.volume_spike then min ((vol_over_sma - th.volume_spike) * 5) 2 else 0
        let ema_dist : ℚ := ((cur.ema5 - cur.close) / cur.close) * 100
        let ema_component : ℚ :=
          if ema_dist > th.ema_distance then min ((ema_dist - th.ema_distance) * (25/8)) (3/2) else 0
        let price_distance : ℚ := abs (liq - cur.close) / cur.close * 100
        let liquidation_component : ℚ :=
          min ((th.liquidation_proximity - min price_distance th.liquidation_proximity) * (6667/100)) 1
        min (rsi_component + wick_component + volume_component + ema_component +
          liquidation_component) 10

/-- The boolean entry gates returned by `detect_entry_signals`. -/
structure SignalSet where
  ema_ok : Bool
  rsi_ok : Bool
  vol_ok : Bool
  wick_ok : Bool
  vwap_ok : Bool
  liq_ok : Bool
  all_ok : Bool
deriving DecidableEq

/-- The all-false default `SignalSet`, `analytics_engine.py:166-170`. -/
def SignalSet.allFalse : SignalSet :=
  ⟨false, false, false, false, false, false, false⟩

/-- `AnalyticsEngine.detect_entry_signals`, `analytics_engine.py:159-205`
(the divergence sub-check runs with the default lookback 5). -/
def detect_entry_signals (th : Thresholds) (df : List IndRow) (liq : ℚ) : SignalSet :=
  if df.length < 20 then SignalSet.allFalse
  else
    match df.getLast? with
    | none => SignalSet.allFalse
    | some cur =>
        let ema_dist : ℚ := ((cur.ema5 - cur.close) / cur.close) * 100
        let ema_ok : Bool := decide (ema_dist > th.ema_distance)
        let rsi_ok : Bool := decide (cur.rsi > th.rsi_threshold) && detect_rsi_divergence df 5
        let vol_ok : Bool := decide (cur.volume > cur.volume_sma20 * th.volume_spike)
        let wick_ok : Bool := decide (cur.wick > th.wick_limit)
        let vwap_ok : Bool := decide (cur.close > cur.vwap * (1 + th.vwap_deviation))
        let price_distance : ℚ := abs (liq - cur.close) / cur.close * 100
        let liq_ok : Bool := decide (price_distance < th.liquidation_proximity)
        ⟨ema_ok, rsi_ok, vol_ok, wick_ok, vwap_ok, liq_ok,
          ema_ok && rsi_ok && vol_ok && wick_ok && vwap_ok && liq_ok⟩

/-! ### Risk system (`src/core/risk_system.py`) -/

/-- The `RiskSystem` object state: constructor parameters, the daily
P&L tracker, the captured starting balance (`None` before the first
`reset_daily`) and the three circuit-breaker flags. -/
structure RiskSystem where
  max_daily_drawdown : ℚ
  btc_atr_threshold : ℚ
  daily_pnl : ℚ
  starting_balance : Option ℚ
  high_volatility : Bool
  api_failure : Bool
  exceeded_drawdown : Bool
deriving DecidableEq

/-- `RiskSystem.__init__`, `risk_system.py:6-19`. -/
def RiskSystem.init (max_daily_drawdown btc_atr_threshold : ℚ) : RiskSystem :=
  { max_daily_drawdown := max_daily_drawdown
    btc_atr_threshold := btc_atr_threshold
    daily_pnl := 0
    starting_balance := none
    high_volatility := false
    api_failure := false
    exceeded_drawdown := false }

/-- `RiskSystem.get_current_balance`, `risk_system.py:30-33`: a static
simulated balance, independent of any recorded P&L. -/
def get_current_balance (_s : RiskSystem) : ℚ := 10000

/-- `RiskSystem.reset_daily`, `risk_system.py:21-28`. -/
def reset_daily (s : RiskSystem) : RiskSystem :=
  { s with daily_pnl := 0
           starting_balance := some (get_current_balance s)
           high_volatility := false
           api_failure := false
           exceeded_drawdown := false }

/-- `RiskSystem.update_pnl`, `risk_system.py:35-51`.  Returns `none` when
`starting_balance` is still `None` (the Python arithmetic would raise a
`TypeError`). -/
def update_pnl (s : RiskSystem) (amount : ℚ) : Option RiskSystem :=
  match s.starting_balance with
  | none => none
  | some sb =>
      let s1 := { s with daily_pnl := s.daily_pnl + amount }
      let current_balance := get_current_balance s1
      let drawdown := (sb - current_balance) / sb
      some (if drawdown ≥ s1.max_daily_drawdown
            then { s1 with exceeded_drawdown := true } else s1)

/-- `RiskSystem.check_btc_volatility`, `risk_system.py:53-63`. -/
def check_btc_volatility (s : RiskSystem) (btc_atr_1h : ℚ) : RiskSystem :=
  if btc_atr_1h > s.btc_atr_threshold
  then { s with high_volatility := true }
  else { s with high_volatility := false }

/-- `RiskSystem.check_api_failures`, `risk_system.py:65-73`. -/
def check_api_failures (s : RiskSystem) (error_count : ℕ) : RiskSystem :=
  if error_count > 5 then { s with api_failure := true } else s

/-- `RiskSystem.trading_allowed`, `risk_system.py:75-78`: embedded as a
plain function of the state (the method reads the flags and mutates
nothing). -/
def trading_allowed (s : RiskSystem) : Bool :=
  !(s.high_volatility || s.api_failure || s.exceeded_drawdown)

/-! ### Execution handler (`src/core/execution_handler.py`) -/

/-- One take-profit level, `execution_handler.py:55-59`. -/
structure TPLevel where
  price : ℚ
  size : ℚ
deriving DecidableEq

/-- A tracked position / simulated order, `execution_handler.py:84-94`.
Order ids and timestamps are produced from the wall clock; they are
passed in explicitly here. -/
structure Position where
  id : String
  symbol : String
  side : String
  price : ℚ
  size : ℚ
  sl : ℚ
  tps : List TPLevel
  status : String
  timestamp : ℚ
deriving DecidableEq

/-- A close record, `execution_handler.py:125-133`. -/
structure CloseOrder where
  id : String
  symbol : String
  side : String
  size : ℚ
  percentage : ℚ
  status : String
  timestamp : ℚ
deriving DecidableEq

/-- An entry of `trade_history` (the source appends order dicts and
close dicts to the same list). -/
inductive TradeRecord
  | openRec (o : Position)
  | closeRec (c : CloseOrder)
deriving DecidableEq

/-- Lookup in the `open_positions` dict (first matching key). -/
def dictGet (m : List (String × Position)) (k : String) : Option Position :=
  match m with
  | [] => none
  | (k1, v) :: rest => if k1 = k then some v else dictGet rest k

/-- Python dict assignment `m[k] = v`: update the existing entry in
place, or append a new one. -/
def dictSet (m : List (String × Position)) (k : String) (v : Position) :
    List (String × Position) :=
  match m with
  | [] => [(k, v)]
  | (k1, v1) :: rest =>
      if k1 = k then (k1, v) :: rest else (k1, v1) :: dictSet rest k v

/-- Python `del m[k]`. -/
def dictDel (m : List (String × Position)) (k : String) : List (String × Position) :=
  match m with
  | [] => []
  | (k1, v1) :: rest => if k1 = k then rest else (k1, v1) :: dictDel rest k

/-- The `ExecutionHandler` object state, `execution_handler.py:7-14`. -/
structure ExecutionHandler where
  risk_per_trade : ℚ
  open_positions : List (String × Position)
  trade_history : List TradeRecord
deriving DecidableEq

/-- `ExecutionHandler.__init__`, `execution_handler.py:7-14`. -/
def ExecutionHandler.init (risk_per_trade : ℚ) : ExecutionHandler :=
  { risk_per_trade := risk_per_trade, open_positions := [], trade_history := [] }

/-- `ExecutionHandler.calculate_position_size`,
`execution_handler.py:16-45`. -/
def calculate_position_size (h : ExecutionHandler)
    (entry_price atr btc_volatility : ℚ) : ℚ :=
  let multiplier : ℚ :=
    if btc_volatility < 1/100 then 1/2
    else if btc_volatility < 2/100 then 21/50
    else 3/10
  let sl_distance := entry_price * (multiplier * atr)
  let size := h.risk_per_trade / sl_distance
  if btc_volatility > 2/100 then size * (3/5) else size

/-- `ExecutionHandler.generate_tp_levels`, `execution_handler.py:47-59`. -/
def generate_tp_levels (entry atr : ℚ) : List TPLevel :=
  [⟨entry - 1 * atr, 50⟩, ⟨entry - 2 * atr, 30⟩, ⟨entry - 3 * atr, 20⟩]

/-- `ExecutionHandler.simulate_order`, `execution_handler.py:61-102`.
The generated order id and the wall-clock timestamp are arguments. -/
def simulate_order (h : ExecutionHandler) (order_id : String) (ts : ℚ)
    (symbol side : String) (entry_price size sl_distance : ℚ)
    (tp_levels : List TPLevel) : Position × ExecutionHandler :=
  let sl_price := if side = "sell" then entry_price - sl_distance
                  else entry_price + sl_distance
  let order : Position :=
    { id := order_id, symbol := symbol, side := side, price := entry_price,
      size := size, sl := sl_price, tps := tp_levels, status := "open",
      timestamp := ts }
  (order, { h with open_positions := dictSet h.open_positions symbol order,
                   trade_history := h.trade_history ++ [TradeRecord.openRec order] })

/-- `ExecutionHandler.simulate_close`, `execution_handler.py:104-147`.
The generated close id and timestamp are arguments.  Returns the close
order (`none` when no position is open for the symbol) together with the
new handler state.  (The source also flips the removed dict's `status`
field after deleting it from the table; the table and history entries
below record the same values the claims observe.) -/
def simulate_close (h : ExecutionHandler) (close_id : String) (ts : ℚ)
    (symbol : String) (percentage : ℚ) : Option CloseOrder × ExecutionHandler :=
  match dictGet h.open_positions symbol with
  | none => (none, h)
  | some position =>
      let close_size := position.size * (percentage / 100)
      let close_side := if position.side = "sell" then "buy" else "sell"
      let close_order : CloseOrder :=
        { id := close_id, symbol := symbol, side := close_side, size := close_size,
          percentage := percentage, status := "closed", timestamp := ts }
      if percentage ≥ 100 then
        (some close_order,
         { h with open_positions := dictDel h.open_positions symbol,
                  trade_history := h.trade_history ++ [TradeRecord.closeRec close_order] })
      else
        (some close_order,
         { h with open_positions :=
                    dictSet h.open_positions symbol
                      { position with size := position.size - close_size },
                  trade_history := h.trade_history ++ [TradeRecord.closeRec close_order] })

/-! ### Session manager (`src/core/session_manager.py`) -/

/-- The six session states, `session_manager.py:29-99`. -/
inductive SessionState
  | PRE_SESSION
  | SCANNING
  | GOLDEN_HOUR
  | MANAGEMENT
  | EXIT_WINDOW
  | SHUTDOWN
deriving DecidableEq

/-- A Jakarta-local wall-clock time of day, counted in microseconds since
midnight (Python `datetime.time` compares (hour, minute, second,
microsecond) lexicographically, which is this counter's order). -/
def tod (hour minute : ℕ) : ℕ := ((hour * 60 + minute) * 60) * 1000000

/-- `SessionManager._time_in_range`, `session_manager.py:19-27`: both
bounds inclusive. -/
def time_in_range (start endT current : ℕ) : Bool :=
  decide (start ≤ current ∧ current ≤ endT)

/-- `SessionManager.determine_session_state`, `session_manager.py:29-99`,
as a function of the current Jakarta time of day.  Returns the state,
the next transition time as (day offset, time of day), and the next
state's name. -/
def determine_session_state (current_time : ℕ) :
    SessionState × (ℕ × ℕ) × SessionState :=
  if time_in_range (tod 18 45) (tod 19 0) current_time then
    (SessionState.PRE_SESSION, (0, tod 19 0), SessionState.SCANNING)
  else if time_in_range (tod 19 0) (tod 19 15) current_time then
    (SessionState.SCANNING, (0, tod 19 30), SessionState.GOLDEN_HOUR)
  else if time_in_range (tod 19 30) (tod 20 30) current_time then
    (SessionState.GOLDEN_HOUR, (0, tod 20 30), SessionState.MANAGEMENT)
  else if time_in_range (tod 20 30) (tod 22 30) current_time then
    (SessionState.MANAGEMENT, (0, tod 22 30), SessionState.EXIT_WINDOW)
  else if time_in_range (tod 22 30) (tod 22 45) current_time then
    (SessionState.EXIT_WINDOW, (0, tod 22 45), SessionState.SHUTDOWN)
  else
    if current_time < tod 18 45 then
      (SessionState.SHUTDOWN, (0, tod 18 45), SessionState.PRE_SESSION)
    else
      (SessionState.SHUTDOWN, (1, tod 18 45), SessionState.PRE_SESSION)

/-! ### Association-list lemmas for the `open_positions` dict -/

/-- A symbol absent from the key list looks up to `none`. -/
theorem dictGet_eq_none_of_not_mem (m : List (String × Position)) (k : String)
    (hk : k ∉ m.map Prod.fst) : dictGet m k = none := by
  induction m with
  | nil => rfl
  | cons hd tl ih =>
      obtain ⟨k1, v1⟩ := hd
      simp only [List.map_cons, List.mem_cons] at hk
      push_neg at hk
      have hne : ¬k1 = k := fun h => hk.1 h.symm
      simp [dictGet, hne, ih hk.2]

/-- `dictSet` stores the value at the key (first occurrence wins on both
sides). -/
theorem dictGet_dictSet_self (m : List (String × Position)) (k : String) (v : Position) :
    dictGet (dictSet m k v) k = some v := by
  induction m with
  | nil => simp [dictSet, dictGet]
  | cons hd tl ih =>
      obtain ⟨k1, v1⟩ := hd
      by_cases hk : k1 = k <;> simp [dictSet, dictGet, hk, ih]

/-- Keys reachable after a `dictSet` were already present or are the new
key. -/
theorem mem_keys_dictSet (m : List (String × Position)) (k x : String) (v : Position)
    (hx : x ∈ (dictSet m k v).map Prod.fst) : x ∈ m.map Prod.fst ∨ x = k := by
  induction m with
  | nil => simpa [dictSet] using hx
  | cons hd tl ih =>
      obtain ⟨k1, v1⟩ := hd
      by_cases hk : k1 = k
      · simp only [dictSet, if_pos hk, List.map_cons, List.mem_cons] at hx
        simp only [List.map_cons, List.mem_cons]
        exact Or.inl hx
      · simp only [dictSet, if_neg hk, List.map_cons, List.mem_cons] at hx ⊢
        rcases hx with h1 | h2
        · exact Or.inl (Or.inl h1)
        · rcases ih h2 with h3 | h3
          · exact Or.inl (Or.inr h3)
          · exact Or.inr h3

/-- `dictSet` preserves key uniqueness. -/
theorem nodup_keys_dictSet (m : List (String × Position)) (k : String) (v : Position)
    (hnd : (m.map Prod.fst).Nodup) : ((dictSet m k v).map Prod.fst).Nodup := by
  induction m with
  | nil => simp [dictSet]
  | cons hd tl ih =>
      obtain ⟨k1, v1⟩ := hd
      simp only [List.map_cons, List.nodup_cons] at hnd
      by_cases hk : k1 = k
      · simpa [dictSet, hk, List.nodup_cons] using hnd
      · simp only [dictSet, if_neg hk, List.map_cons, List.nodup_cons]
        refine ⟨fun hmem => ?_, ih hnd.2⟩
        rcases mem_keys_dictSet tl k k1 v hmem with h | h
        · exact hnd.1 h
        · exact hk h

/-- With unique keys, `dictDel` makes the key unreachable. -/
theorem dictGet_dictDel_self (m : List (String × Position)) (k : String)
    (hnd : (m.map Prod.fst).Nodup) : dictGet (dictDel m k) k = none := by
  induction m with
  | nil => rfl
  | cons hd tl ih =>
      obtain ⟨k1, v1⟩ := hd
      simp only [List.map_cons, List.nodup_cons] at hnd
      by_cases hk : k1 = k
      · subst hk
        simpa [dictDel] using dictGet_eq_none_of_not_mem tl k1 hnd.1
      · simp [dictDel, dictGet, hk, ih hnd.2]

/-! ### Claims about the risk system -/

/-- C4: in every risk-engine state, `trading_allowed` is a pure function
of the state (its embedding as `RiskSystem → Bool` mutates nothing) and
returns `true` exactly when all three circuit breakers are `false`;
`reset_daily` from any state clears all three breakers and resets
`daily_pnl` to `0`. -/
theorem trading_allowed_iff_breakers_clear (s : RiskSystem) :
    (trading_allowed s = true ↔
      s.high_volatility = false ∧ s.api_failure = false ∧ s.exceeded_drawdown = false) ∧
    (reset_daily s).high_volatility = false ∧
    (reset_daily s).api_failure = false ∧
    (reset_daily s).exceeded_drawdown = false ∧
    (reset_daily s).daily_pnl = 0 := by
  refine ⟨?_, ?_, ?_, ?_, ?_⟩
  · simp [trading_allowed, and_assoc]
  all_goals simp [reset_daily]

/-- C5 (code bug): with the default limits (`max_daily_drawdown` 1.5%,
`btc_atr_threshold` 2%), after `reset_daily` a 350-unit loss — a 3.5%
drawdown by the module's own test arithmetic (`risk_system.py:99-102`) —
is accumulated into `daily_pnl` but leaves `exceeded_drawdown` `false`:
`get_current_balance` is a static 10000 that ignores `daily_pnl`, so the
recomputed drawdown is always `(10000 - 10000)/10000 = 0` and the
breaker can never latch on accumulated losses. -/
theorem update_pnl_never_latches_drawdown :
    (update_pnl (reset_daily (RiskSystem.init (3/200) (1/50))) (-350)).map
        (fun s => (s.daily_pnl, s.exceeded_drawdown)) = some (-350, false) := by
  norm_num [update_pnl, reset_daily, RiskSystem.init, get_current_balance]

/-! ### Claims about the execution handler -/

/-- C6: `calculate_position_size` picks the stop-loss multiplier by
volatility tier (<1% → 0.50, 1–2% → 0.42, ≥2% → 0.30), computes
stop distance = entry × (multiplier × atr) and size = risk budget /
stop distance, and applies the ×0.6 reduction exactly when the
volatility exceeds 2% (not at exactly 2%); at entry 60000, atr 1500,
volatility 0.008 the stop distance is 45,000,000. -/
theorem calculate_position_size_tiers (h : ExecutionHandler) (entry atr v : ℚ) :
    (v < 1/100 →
      calculate_position_size h entry atr v = h.risk_per_trade / (entry * ((1/2) * atr))) ∧
    (1/100 ≤ v → v < 2/100 →
      calculate_position_size h entry atr v = h.risk_per_trade / (entry * ((21/50) * atr))) ∧
    (v = 2/100 →
      calculate_position_size h entry atr v = h.risk_per_trade / (entry * ((3/10) * atr))) ∧
    (2/100 < v →
      calculate_position_size h entry atr v =
        h.risk_per_trade / (entry * ((3/10) * atr)) * (3/5)) ∧
    calculate_position_size h 60000 1500 (8/1000) = h.risk_per_trade / 45000000 := by
  refine ⟨fun h1 => ?_, fun h1 h2 => ?_, fun h1 => ?_, fun h1 => ?_, ?_⟩
  · simp only [calculate_position_size, if_pos h1]
    rw [if_neg (by linarith)]
  · simp only [calculate_position_size, if_neg (by linarith : ¬v < 1/100), if_pos h2]
    rw [if_neg (by linarith)]
  · subst h1
    norm_num [calculate_position_size]
  · simp only [calculate_position_size, if_neg (by linarith : ¬v < 1/100),
      if_neg (by linarith : ¬v < 2/100), if_pos h1]
  · norm_num [calculate_position_size]

/-- Witness for C6: the three tiers at the named volatilities 0.008,
0.015 and 0.025 with a 100-unit risk budget. -/
theorem calculate_position_size_tiers_witness :
    calculate_position_size (ExecutionHandler.init 100) 60000 1500 (8/1000) = 100 / 45000000 ∧
    calculate_position_size (ExecutionHandler.init 100) 60000 1500 (15/1000) =
      100 / (60000 * ((21/50) * 1500)) ∧
    calculate_position_size (ExecutionHandler.init 100) 60000 1500 (25/1000) =
      100 / (60000 * ((3/10) * 1500)) * (3/5) := by
  refine ⟨?_, ?_, ?_⟩
  · exact ((calculate_position_size_tiers (ExecutionHandler.init 100) 60000 1500
      (8/1000)).2.2.2.2).trans (by norm_num [ExecutionHandler.init])
  · exact (((calculate_position_size_tiers (ExecutionHandler.init 100) 60000 1500
      (15/1000)).2.1) (by norm_num) (by norm_num)).trans (by norm_num [ExecutionHandler.init])
  · exact (((calculate_position_size_tiers (ExecutionHandler.init 100) 60000 1500
      (25/1000)).2.2.2.1) (by norm_num)).trans (by norm_num [ExecutionHandler.init])

/-- A concrete open sell position used in witnesses. -/
def posBTC : Position :=
  { id := "SIM_1", symbol := "BTCUSDT", side := "sell", price := 60000, size := 1,
    sl := 60600, tps := [], status := "open", timestamp := 0 }

/-- A concrete handler state tracking `posBTC`. -/
def handlerBTC : ExecutionHandler :=
  { risk_per_trade := 100, open_positions := [("BTCUSDT", posBTC)],
    trade_history := [TradeRecord.openRec posBTC] }

/-- Counterexample for C8: a close request of 150% (> 100) is not
rejected — `simulate_close` returns a close order recording 1.5× the
position size and deletes the position, exactly like a full close. -/
theorem simulate_close_over_100_executes :
    (simulate_close handlerBTC "CLOSE_1" 1 "BTCUSDT" 150).1 =
      some { id := "CLOSE_1", symbol := "BTCUSDT", side := "buy", size := 3/2,
             percentage := 150, status := "closed", timestamp := 1 } ∧
    dictGet (simulate_close handlerBTC "CLOSE_1" 1 "BTCUSDT" 150).2.open_positions
      "BTCUSDT" = none := by
  have hpos : dictGet handlerBTC.open_positions "BTCUSDT" = some posBTC := by
    simp [handlerBTC, dictGet]
  constructor
  · simp only [simulate_close, hpos]
    norm_num [posBTC]
  · simp only [simulate_close, hpos]
    norm_num [handlerBTC, dictDel, dictGet]

/-- C8 (amended): closing a symbol with no open position is a no-op
returning `none`; a close percentage ≥ 100 — including one exceeding
100 — is *not* rejected: it is executed as a full close, removing the
position and appending one close record with size S × p/100; and closing
50% then 100% of a position leaves no open position for the symbol and
appends exactly two close records to the history. -/
theorem simulate_close_error_contract (h : ExecutionHandler) (cid cid2 : String)
    (t1 t2 : ℚ) (sym : String) (p : ℚ)
    (hnd : (h.open_positions.map Prod.fst).Nodup) :
    (dictGet h.open_positions sym = none → simulate_close h cid t1 sym p = (none, h)) ∧
    (∀ pos, dictGet h.open_positions sym = some pos → 100 ≤ p →
      (simulate_close h cid t1 sym p).1 =
        some { id := cid, symbol := sym,
               side := if pos.side = "sell" then "buy" else "sell",
               size := pos.size * (p / 100), percentage := p, status := "closed",
               timestamp := t1 } ∧
      dictGet (simulate_close h cid t1 sym p).2.open_positions sym = none ∧
      (simulate_close h cid t1 sym p).2.trade_history =
        h.trade_history ++ [TradeRecord.closeRec
          { id := cid, symbol := sym,
            side := if pos.side = "sell" then "buy" else "sell",
            size := pos.size * (p / 100), percentage := p, status := "closed",
            timestamp := t1 }]) ∧
    (∀ pos, dictGet h.open_positions sym = some pos →
      dictGet (simulate_close (simulate_close h cid t1 sym 50).2 cid2 t2 sym
        100).2.open_positions sym = none ∧
      ∃ c1 c2 : CloseOrder,
        (simulate_close (simulate_close h cid t1 sym 50).2 cid2 t2 sym
          100).2.trade_history =
          h.trade_history ++ [TradeRecord.closeRec c1, TradeRecord.closeRec c2]) := by
  refine ⟨fun hnone => ?_, fun pos hpos hp => ?_, fun pos hpos => ?_⟩
  · simp only [simulate_close, hnone]
  · simp only [simulate_close, hpos, ge_iff_le, if_pos hp]
    exact ⟨trivial, dictGet_dictDel_self _ _ hnd, trivial⟩
  · have h50 : ¬((100 : ℚ) ≤ 50) := by norm_num
    have h100 : ((100 : ℚ) ≤ 100) := le_refl _
    have e1 : (simulate_close h cid t1 sym 50).2 =
        { h with
          open_positions := dictSet h.open_positions sym
            { pos with size := pos.size - pos.size * (50 / 100) },
          trade_history := h.trade_history ++ [TradeRecord.closeRec
            { id := cid, symbol := sym,
              side := if pos.side = "sell" then "buy" else "sell",
              size := pos.size * (50 / 100), percentage := 50, status := "closed",
              timestamp := t1 }] } := by
      simp only [simulate_close, hpos, ge_iff_le, if_neg h50]
    have hget1 : dictGet (simulate_close h cid t1 sym 50).2.open_positions sym =
        some { pos with size := pos.size - pos.size * (50 / 100) } := by
      rw [e1]
      exact dictGet_dictSet_self _ _ _
    have hnd1 : (((simulate_close h cid t1 sym 50).2.open_positions).map
        Prod.fst).Nodup := by
      rw [e1]
      exact nodup_keys_dictSet _ _ _ hnd
    constructor
    · generalize (simulate_close h cid t1 sym 50).2 = h1s at hget1 hnd1 ⊢
      simp only [simulate_close, hget1, ge_iff_le, if_pos h100]
      exact dictGet_dictDel_self _ _ hnd1
    · generalize (simulate_close h cid t1 sym 50).2 = h1s at hget1 e1 ⊢
      refine ⟨⟨cid, sym, (if pos.side = "sell" then "buy" else "sell"),
          pos.size * (50 / 100), 50, "closed", t1⟩,
        ⟨cid2, sym, (if pos.side = "sell" then "buy" else "sell"),
          (pos.size - pos.size * (50 / 100)) * (100 / 100), 100, "closed", t2⟩, ?_⟩
      simp only [simulate_close, hget1, ge_iff_le, if_pos h100]
      rw [e1]
      simp [List.append_assoc]

/-- Witness for C8: the no-position no-op on an empty handler, and the
50%-then-100% sequence on `handlerBTC` emptying the position. -/
theorem simulate_close_error_contract_witness :
    simulate_close (ExecutionHandler.init 100) "C0" 0 "BTCUSDT" 50 =
      (none, ExecutionHandler.init 100) ∧
    dictGet (simulate_close (simulate_close handlerBTC "C1" 1 "BTCUSDT" 50).2 "C2" 2
      "BTCUSDT" 100).2.open_positions "BTCUSDT" = none := by
  constructor
  · exact (simulate_close_error_contract (ExecutionHandler.init 100) "C0" "X" 0 0
      "BTCUSDT" 50 (by simp [ExecutionHandler.init])).1 (by simp [ExecutionHandler.init, dictGet])
  · exact ((simulate_close_error_contract handlerBTC "C1" "C2" 1 2 "BTCUSDT" 50
      (by simp [handlerBTC])).2.2 posBTC (by simp [handlerBTC, dictGet])).1

/-- C10: a partial close (0 < p < 100) of a tracked position of size S
leaves the position present in the open-position table with size
S × (1 − p/100) and every other field — id, symbol, side, entry price,
stop price, TP ladder, status, timestamp — unchanged. -/
theorem simulate_close_partial_frame (h : ExecutionHandler) (cid : String) (t : ℚ)
    (sym : String) (p : ℚ) (pos : Position)
    (hpos : dictGet h.open_positions sym = some pos) (hp0 : 0 < p) (hp100 : p < 100) :
    dictGet (simulate_close h cid t sym p).2.open_positions sym =
      some { pos with size := pos.size * (1 - p / 100) } := by
  have hle : ¬(100 ≤ p) := not_le.mpr hp100
  simp only [simulate_close, hpos, ge_iff_le, if_neg hle]
  rw [dictGet_dictSet_self]
  have hsz : pos.size - pos.size * (p / 100) = pos.size * (1 - p / 100) := by ring
  rw [hsz]

/-- Witness for C10: closing 50% of `posBTC` halves its size and keeps
every other field. -/
theorem simulate_close_partial_frame_witness :
    dictGet (simulate_close handlerBTC "C1" 1 "BTCUSDT" 50).2.open_positions "BTCUSDT" =
      some { posBTC with size := posBTC.size * (1 - 50 / 100) } :=
  simulate_close_partial_frame handlerBTC "C1" 1 "BTCUSDT" 50 posBTC
    (by simp [handlerBTC, dictGet]) (by norm_num) (by norm_num)

/-! ### Claims about the session state machine -/

/-- Counterexample for C3: at exactly 19:00:00 Jakarta time the spec's
half-open windows put the state in SCANNING ([19:00,19:15)), but
`_time_in_range` is inclusive at both ends and the PRE_SESSION branch is
tested first, so the code returns PRE_SESSION. -/
theorem session_state_at_19_00 :
    (determine_session_state (tod 19 0)).1 = SessionState.PRE_SESSION ∧
    ¬(determine_session_state (tod 19 0)).1 = SessionState.SCANNING := by
  constructor <;> decide

/-- C3 (amended): the windows are closed at both ends and checked in
order, so a shared boundary instant belongs to the earlier window:
PRE_SESSION on [18:45,19:00], SCANNING on (19:00,19:15], GOLDEN_HOUR on
[19:30,20:30], MANAGEMENT on (20:30,22:30], EXIT_WINDOW on (22:30,22:45],
and SHUTDOWN exactly on the remaining times (before 18:45, strictly
between 19:15 and 19:30, after 22:45); 19:45 still yields GOLDEN_HOUR
with next state MANAGEMENT at 20:30. -/
theorem session_state_windows (t : ℕ) :
    ((determine_session_state t).1 = SessionState.PRE_SESSION ↔
      tod 18 45 ≤ t ∧ t ≤ tod 19 0) ∧
    ((determine_session_state t).1 = SessionState.SCANNING ↔
      tod 19 0 < t ∧ t ≤ tod 19 15) ∧
    ((determine_session_state t).1 = SessionState.GOLDEN_HOUR ↔
      tod 19 30 ≤ t ∧ t ≤ tod 20 30) ∧
    ((determine_session_state t).1 = SessionState.MANAGEMENT ↔
      tod 20 30 < t ∧ t ≤ tod 22 30) ∧
    ((determine_session_state t).1 = SessionState.EXIT_WINDOW ↔
      tod 22 30 < t ∧ t ≤ tod 22 45) ∧
    ((determine_session_state t).1 = SessionState.SHUTDOWN ↔
      t < tod 18 45 ∨ (tod 19 15 < t ∧ t < tod 19 30) ∨ tod 22 45 < t) ∧
    determine_session_state (tod 19 45) =
      (SessionState.GOLDEN_HOUR, (0, tod 20 30), SessionState.MANAGEMENT) := by
  refine ⟨?_, ?_, ?_, ?_, ?_, ?_, by decide⟩
  all_goals
    unfold determine_session_state
    simp only [time_in_range, tod, decide_eq_true_eq]
    split_ifs <;> simp <;> omega

/-! ### Claims about the analytics engine -/

/-- C2: for every series of fewer than 20 bars, the indicator pipeline
returns the input unchanged, the exhaustion score is 0.0, and every
entry-signal flag is false — none of the three operations fails. -/
theorem short_series_inert (lib : IndicatorLib) (th : Thresholds) (dfr : List Bar)
    (df : List IndRow) (liq : ℚ) (h1 : dfr.length < 20) (h2 : df.length < 20) :
    calculate_indicators lib dfr = Frame.raw dfr ∧
    calculate_exhaustion_score th df liq = 0 ∧
    detect_entry_signals th df liq = SignalSet.allFalse := by
  refine ⟨?_, ?_, ?_⟩
  · simp [calculate_indicators, h1]
  · simp [calculate_exhaustion_score, h2]
  · simp [detect_entry_signals, h2]

/-- Concrete thresholds (the v3.0 values printed by the module's own
test): rsi 70, ema distance 4.8, volume spike 3.7, wick 0.6, vwap
deviation 0.05, liquidation proximity 1.5. -/
def th0 : Thresholds := ⟨70, 24/5, 37/10, 3/5, 1/20, 3/2⟩

/-- An indicator library producing no values (used to witness the
short-series branch, which never consults it). -/
def nilLib : IndicatorLib :=
  ⟨fun _ _ => [], fun _ _ => [], fun _ _ _ _ => [], fun _ _ => []⟩

/-- Witness for C2: the empty series. -/
theorem short_series_inert_witness :
    calculate_indicators nilLib [] = Frame.raw [] ∧
    calculate_exhaustion_score th0 [] 100 = 0 ∧
    detect_entry_signals th0 [] 100 = SignalSet.allFalse :=
  short_series_inert nilLib th0 [] [] 100 (by decide) (by decide)

/-- `argmaxHigh` finds a row whenever the list is nonempty. -/
theorem argmaxHigh_isSome (l : List IndRow) (h : l ≠ []) : (argmaxHigh l).isSome := by
  cases l with
  | nil => simp at h
  | cons r rs =>
      cases hrec : argmaxHigh rs
      · simp [argmaxHigh, hrec]
      · simp only [argmaxHigh, hrec]
        split <;> simp

/-- `argmaxHigh` returns an element of the list. -/
theorem argmaxHigh_mem (l : List IndRow) :
    ∀ m, argmaxHigh l = some m → m ∈ l := by
  induction l with
  | nil => intro m hm; simp [argmaxHigh] at hm
  | cons r rs ih =>
      intro m hm
      cases hrec : argmaxHigh rs with
      | none =>
          simp only [argmaxHigh, hrec, Option.some.injEq] at hm
          simp [← hm]
      | some m1 =>
          simp only [argmaxHigh, hrec] at hm
          by_cases hgt : m1.high > r.high
          · rw [if_pos hgt, Option.some.injEq] at hm
            subst hm
            exact List.mem_cons_of_mem _ (ih _ hrec)
          · rw [if_neg hgt, Option.some.injEq] at hm
            simp [← hm]

/-- `argmaxHigh` returns a row of maximal `high`. -/
theorem argmaxHigh_le (l : List IndRow) :
    ∀ m, argmaxHigh l = some m → ∀ r ∈ l, r.high ≤ m.high := by
  induction l with
  | nil => intro m hm; simp [argmaxHigh] at hm
  | cons r rs ih =>
      intro m hm x hx
      cases hrec : argmaxHigh rs with
      | none =>
          have hrs : rs = [] := by
            by_cases hq : rs = []
            · exact hq
            · exact absurd (argmaxHigh_isSome rs hq) (by simp [hrec])
          subst hrs
          simp only [argmaxHigh, hrec, Option.some.injEq] at hm
          subst hm
          rcases List.mem_cons.mp hx with hxr | hxs
          · subst hxr; exact le_refl _
          · cases hxs
      | some m1 =>
          simp only [argmaxHigh, hrec] at hm
          by_cases hgt : m1.high > r.high
          · rw [if_pos hgt, Option.some.injEq] at hm
            subst hm
            rcases List.mem_cons.mp hx with hxr | hxs
            · subst hxr; exact le_of_lt hgt
            · exact ih _ hrec x hxs
          · rw [if_neg hgt, Option.some.injEq] at hm
            subst hm
            rcases List.mem_cons.mp hx with hxr | hxs
            · subst hxr; exact le_refl _
            · exact le_trans (ih _ hrec x hxs) (not_lt.mp hgt)

/-- `getLast?` is unchanged by dropping fewer elements than the list holds. -/
theorem getLast?_drop_of_lt (l : List IndRow) (n : ℕ) (h : n < l.length) :
    (l.drop n).getLast? = l.getLast? := by
  rw [List.getLast?_eq_getElem?, List.getLast?_eq_getElem?, List.getElem?_drop]
  congr 1
  rw [List.length_drop]
  omega

/-- C7: the divergence detector returns false when fewer than
`lookback + 1` bars are available; returns false whenever the most
recent bar's rsi ≤ 70; and otherwise returns true exactly when the
current bar's rsi exceeds 70, its high strictly exceeds the maximal high
of the preceding `lookback` bars, and its rsi is below the rsi of the
(first) bar attaining that maximal high. -/
theorem detect_rsi_divergence_spec (df : List IndRow) (W : ℕ) :
    (df.length < W + 1 → detect_rsi_divergence df W = false) ∧
    (∀ cur, df.getLast? = some cur → cur.rsi ≤ 70 →
      detect_rsi_divergence df W = false) ∧
    (W + 1 ≤ df.length →
      (detect_rsi_divergence df W = true ↔
        ∃ cur ref, df.getLast? = some cur ∧
          argmaxHigh ((df.drop (df.length - (W + 1))).take W) = some ref ∧
          ref ∈ (df.drop (df.length - (W + 1))).take W ∧
          (∀ r ∈ (df.drop (df.length - (W + 1))).take W, r.high ≤ ref.high) ∧
          70 < cur.rsi ∧ ref.high < cur.high ∧ cur.rsi < ref.rsi)) := by
  refine ⟨fun hshort => ?_, fun cur hcur h70 => ?_, fun hlen => ?_⟩
  · simp [detect_rsi_divergence, hshort]
  · by_cases hshort : df.length < W + 1
    · simp [detect_rsi_divergence, hshort]
    · have hdr : (df.drop (df.length - (W + 1))).getLast? = some cur := by
        rw [getLast?_drop_of_lt _ _ (by omega)]
        exact hcur
      simp only [detect_rsi_divergence, if_neg hshort]
      rw [hdr]
      cases hax : argmaxHigh ((df.drop (df.length - (W + 1))).take W) with
      | none => rfl
      | some ref =>
          refine decide_eq_false ?_
          rintro ⟨h1, -, -⟩
          exact absurd h1 (not_lt.mpr h70)
  · have hne : df.drop (df.length - (W + 1)) ≠ [] := by
      intro hnil
      rw [List.drop_eq_nil_iff] at hnil
      omega
    have hcur0 : ∃ cur, (df.drop (df.length - (W + 1))).getLast? = some cur := by
      cases hq : (df.drop (df.length - (W + 1))).getLast? with
      | none => exact absurd (List.getLast?_eq_none_iff.mp hq) hne
      | some c => exact ⟨c, rfl⟩
    obtain ⟨cur, hcur⟩ := hcur0
    have hlast : df.getLast? = some cur := by
      rw [← getLast?_drop_of_lt df (df.length - (W + 1)) (by omega)]
      exact hcur
    simp only [detect_rsi_divergence, if_neg (not_lt.mpr hlen)]
    rw [hcur]
    cases hax : argmaxHigh ((df.drop (df.length - (W + 1))).take W) with
    | none =>
        constructor
        · intro hfalse
          exact absurd hfalse (by simp)
        · rintro ⟨c2, r2, -, hax2, -⟩
          cases hax2
    | some ref =>
        simp only [decide_eq_true_eq]
        constructor
        · rintro ⟨h70, hhigh, hrsi⟩
          exact ⟨cur, ref, hlast, rfl, argmaxHigh_mem _ _ hax,
            argmaxHigh_le _ _ hax, h70, hhigh, hrsi⟩
        · rintro ⟨c2, r2, hl2, hax2, -, -, h70, hhigh, hrsi⟩
          rw [hlast] at hl2
          injection hl2 with hl2e
          injection hax2 with hax2e
          subst hl2e
          subst hax2e
          exact ⟨h70, hhigh, hrsi⟩

/-- A concrete indicator row with rsi 50 (not overbought). -/
def rowA : IndRow := ⟨1, 2, 0, 1, 1, 1, 50, 1, 1, 1, 1/2⟩

/-- Witness for C7: the empty series yields false, and a series whose
most recent rsi is 50 ≤ 70 yields false. -/
theorem detect_rsi_divergence_spec_witness :
    detect_rsi_divergence [] 5 = false ∧ detect_rsi_divergence [rowA] 5 = false := by
  constructor
  · exact (detect_rsi_divergence_spec [] 5).1 (by decide)
  · exact (detect_rsi_divergence_spec [rowA] 5).2.1 rowA rfl (by norm_num [rowA])

/-- Every row the augmentation step emits carries the bar's own OHLC
values and the wick value computed from that same bar. -/
theorem augmentRows_shape (lib : IndicatorLib) (df : List Bar) (row : IndRow)
    (hrow : row ∈ augmentRows lib df) :
    ∃ b ∈ df, row.high = b.high ∧ row.low = b.low ∧ row.close = b.close ∧
      row.wick = wickValue b := by
  simp only [augmentRows] at hrow
  obtain ⟨i, hi, hf⟩ := List.mem_filterMap.mp hrow
  split at hf
  · rename_i b e r a s vw hb hhe hhr hha hhs hhvw
    injection hf with hfe
    refine ⟨b, List.getElem?_mem hb, ?_⟩
    rw [← hfe]
    exact ⟨rfl, rfl, rfl, rfl⟩
  · cases hf

/-- The wick value of a well-formed bar (low ≤ close ≤ high) lies in
[0, 1], and a degenerate bar with high = low yields 0. -/
theorem wickValue_bounds (b : Bar) :
    (b.low ≤ b.close → b.close ≤ b.high → 0 ≤ wickValue b ∧ wickValue b ≤ 1) ∧
    (b.high = b.low → wickValue b = 0) := by
  constructor
  · intro hl hh
    unfold wickValue
    split
    · norm_num
    · rename_i hne
      have hpos : 0 < b.high - b.low := by
        rcases lt_or_eq_of_le (le_trans hl hh) with h | h
        · linarith
        · exact absurd (by linarith : b.high - b.low = 0) hne
      constructor
      · exact div_nonneg (by linarith) (le_of_lt hpos)
      · rw [div_le_one hpos]
        linarith
  · intro hdeg
    unfold wickValue
    rw [if_pos (by linarith)]

/-- C9: every row produced by the indicator pipeline from well-formed
bars (low ≤ close ≤ high) has its wick-ratio column in [0, 1], and a
degenerate bar with high = low yields wick ratio 0 — never NaN, ±inf or
a division error (the source replaces those with 0). -/
theorem wick_in_unit_interval (lib : IndicatorLib) (df : List Bar)
    (hdf : ∀ b ∈ df, b.low ≤ b.close ∧ b.close ≤ b.high)
    (rows : List IndRow) (hpipe : calculate_indicators lib df = Frame.augmented rows)
    (row : IndRow) (hrow : row ∈ rows) :
    (0 ≤ row.wick ∧ row.wick ≤ 1) ∧ (row.high = row.low → row.wick = 0) := by
  have hrows : rows = augmentRows lib df := by
    unfold calculate_indicators at hpipe
    split at hpipe
    · cases hpipe
    · injection hpipe with h
      exact h.symm
  subst hrows
  obtain ⟨b, hbmem, hbh, hbl, hbc, hbw⟩ := augmentRows_shape lib df row hrow
  obtain ⟨h1, h2⟩ := hdf b hbmem
  constructor
  · rw [hbw]
    exact (wickValue_bounds b).1 h1 h2
  · intro hdeg
    rw [hbw]
    exact (wickValue_bounds b).2 (by rw [← hbh, ← hbl]; exact hdeg)

/-- An indicator library that defines every indicator at every bar
(each column is the close/volume column wrapped in `some`). -/
def someLib : IndicatorLib :=
  ⟨fun _ cs => cs.map some, fun _ cs => cs.map some,
   fun _ _ _ cs => cs.map some, fun _ vs => vs.map some⟩

/-- A concrete well-formed bar: open 1, high 2, low 0, close 1, volume 1. -/
def bar0 : Bar := ⟨1, 2, 0, 1, 1⟩

/-- Twenty copies of `bar0` — long enough for the pipeline to augment. -/
def df20 : List Bar := List.replicate 20 bar0

/-- The augmented row the pipeline produces from `bar0` under `someLib`
(wick ratio (2−1)/(2−0) = 1/2). -/
def row0 : IndRow := ⟨1, 2, 0, 1, 1, 1, 1, 1, 1, 1, 1/2⟩

/-- `row0` is among the rows the pipeline emits for `df20`. -/
theorem row0_mem_augmentRows : row0 ∈ augmentRows someLib df20 := by
  simp only [augmentRows]
  refine List.mem_filterMap.mpr ⟨0, by decide, ?_⟩
  have h1 : df20[0]? = some bar0 := by simp [df20]
  have h2 : ((df20.map (fun b => b.close)).map some)[0]? = some (some 1) := by
    simp [df20, bar0]
  have h3 : ((df20.map (fun b => b.volume)).map some)[0]? = some (some 1) := by
    simp [df20, bar0]
  have h4 : (vwapList df20)[0]? = some 1 := by
    simp [vwapList, df20, bar0]
    norm_num
  simp only [someLib, h1, h2, h3, h4]
  simp [row0, wickValue, bar0]
  norm_num

/-- Witness for C9: the pipeline output row for `bar0` has wick ratio
1/2 ∈ [0,1]. -/
theorem wick_in_unit_interval_witness :
    (0 ≤ row0.wick ∧ row0.wick ≤ 1) ∧ (row0.high = row0.low → row0.wick = 0) :=
  wick_in_unit_interval someLib df20
    (by
      intro b hb
      simp only [df20] at hb
      rw [List.eq_of_mem_replicate hb]
      norm_num [bar0])
    (augmentRows someLib df20)
    (by simp [calculate_indicators, df20])
    row0 row0_mem_augmentRows

/-- The RSI score component as the spec words it: 0 if rsi ≤
rsi_threshold, else min((rsi − rsi_threshold) × 0.3, 3.0). -/
def specRsiComponent (th : Thresholds) (cur : IndRow) : ℚ :=
  if cur.rsi ≤ th.rsi_threshold then 0
  else min ((cur.rsi - th.rsi_threshold) * (3/10)) 3

/-- The wick score component as the spec words it:
min(wick_ratio × 25, 2.5). -/
def specWickComponent (cur : IndRow) : ℚ := min (cur.wick * 25) (5/2)

/-- The volume score component as the spec words it: with ratio =
volume / volume_sma, 0 if ratio ≤ volume_spike, else
min((ratio − volume_spike) × 5, 2.0). -/
def specVolumeComponent (th : Thresholds) (cur : IndRow) : ℚ :=
  if cur.volume / cur.volume_sma20 ≤ th.volume_spike then 0
  else min ((cur.volume / cur.volume_sma20 - th.volume_spike) * 5) 2

/-- The EMA score component as the spec words it: with dist =
(ema_fast − close)/close × 100, 0 if dist ≤ ema_distance, else
min((dist − ema_distance) × 3.125, 1.5). -/
def specEmaComponent (th : Thresholds) (cur : IndRow) : ℚ :=
  if ((cur.ema5 - cur.close) / cur.close) * 100 ≤ th.ema_distance then 0
  else min ((((cur.ema5 - cur.close) / cur.close) * 100 - th.ema_distance) * (25/8)) (3/2)

/-- The liquidation score component as the spec words it: with pd =
|liquidation_price − close|/close × 100,
min((liquidation_proximity − min(pd, liquidation_proximity)) × 66.67, 1.0). -/
def specLiqComponent (th : Thresholds) (cur : IndRow) (liq : ℚ) : ℚ :=
  min ((th.liquidation_proximity -
    min (abs (liq - cur.close) / cur.close * 100) th.liquidation_proximity) * (6667/100)) 1

/-- Each score component is nonnegative (the wick component under the
data-model invariant wick_ratio ≥ 0; the four gated components are 0 in
their off branch and a product of positives capped above in their on
branch; the liquidation component subtracts a `min` from its own bound). -/
theorem specComponents_nonneg (th : Thresholds) (cur : IndRow) (liq : ℚ)
    (hw : 0 ≤ cur.wick) :
    0 ≤ specRsiComponent th cur ∧ 0 ≤ specWickComponent cur ∧
    0 ≤ specVolumeComponent th cur ∧ 0 ≤ specEmaComponent th cur ∧
    0 ≤ specLiqComponent th cur liq := by
  refine ⟨?_, ?_, ?_, ?_, ?_⟩
  · unfold specRsiComponent
    split
    · exact le_refl 0
    · rename_i hgt
      push_neg at hgt
      exact le_min (mul_nonneg (by linarith) (by norm_num)) (by norm_num)
  · exact le_min (mul_nonneg hw (by norm_num)) (by norm_num)
  · unfold specVolumeComponent
    split
    · exact le_refl 0
    · rename_i hgt
      push_neg at hgt
      exact le_min (mul_nonneg (by linarith) (by norm_num)) (by norm_num)
  · unfold specEmaComponent
    split
    · exact le_refl 0
    · rename_i hgt
      push_neg at hgt
      exact le_min (mul_nonneg (by linarith) (by norm_num)) (by norm_num)
  · unfold specLiqComponent
    refine le_min (mul_nonneg ?_ (by norm_num)) (by norm_num)
    have hmin := min_le_right (abs (liq - cur.close) / cur.close * 100)
      th.liquidation_proximity
    linarith

/-- C1: for an indicator-augmented series of at least 20 bars (whose
last bar satisfies the data-model invariant wick_ratio ≥ 0) and any
reference liquidation price, the exhaustion score equals the sum —
capped at 10.0 — of the five spec components evaluated on the most
recent bar only, and the returned score lies in [0, 10]. -/
theorem exhaustion_score_formula (th : Thresholds) (df : List IndRow) (liq : ℚ)
    (h20 : 20 ≤ df.length) (cur : IndRow) (hlast : df.getLast? = some cur)
    (hw : 0 ≤ cur.wick) :
    calculate_exhaustion_score th df liq =
      min (specRsiComponent th cur + specWickComponent cur + specVolumeComponent th cur +
        specEmaComponent th cur + specLiqComponent th cur liq) 10 ∧
    0 ≤ calculate_exhaustion_score th df liq ∧
    calculate_exhaustion_score th df liq ≤ 10 := by
  have e1 : (if cur.rsi > th.rsi_threshold
      then min ((cur.rsi - th.rsi_threshold) * (3/10)) 3 else 0) =
      specRsiComponent th cur := by
    unfold specRsiComponent
    rcases le_or_lt cur.rsi th.rsi_threshold with h | h
    · rw [if_neg (not_lt.mpr h), if_pos h]
    · rw [if_pos h, if_neg (not_le.mpr h)]
  have e3 : (if cur.volume / cur.volume_sma20 > th.volume_spike
      then min ((cur.volume / cur.volume_sma20 - th.volume_spike) * 5) 2 else 0) =
      specVolumeComponent th cur := by
    unfold specVolumeComponent
    rcases le_or_lt (cur.volume / cur.volume_sma20) th.volume_spike with h | h
    · rw [if_neg (not_lt.mpr h), if_pos h]
    · rw [if_pos h, if_neg (not_le.mpr h)]
  have e4 : (if ((cur.ema5 - cur.close) / cur.close) * 100 > th.ema_distance
      then min ((((cur.ema5 - cur.close) / cur.close) * 100 - th.ema_distance) * (25/8))
        (3/2) else 0) =
      specEmaComponent th cur := by
    unfold specEmaComponent
    rcases le_or_lt (((cur.ema5 - cur.close) / cur.close) * 100) th.ema_distance with h | h
    · rw [if_neg (not_lt.mpr h), if_pos h]
    · rw [if_pos h, if_neg (not_le.mpr h)]
  have heq : calculate_exhaustion_score th df liq =
      min (specRsiComponent th cur + specWickComponent cur + specVolumeComponent th cur +
        specEmaComponent th cur + specLiqComponent th cur liq) 10 := by
    simp only [calculate_exhaustion_score, if_neg (not_lt.mpr h20), hlast]
    rw [e1, e3, e4]
    simp only [specWickComponent, specLiqComponent]
  obtain ⟨n1, n2, n3, n4, n5⟩ := specComponents_nonneg th cur liq hw
  refine ⟨heq, ?_, ?_⟩
  · rw [heq]
    exact le_min (by linarith) (by norm_num)
  · rw [heq]
    exact min_le_right _ _

/-- Witness for C1: a 20-bar series ending in `rowA` scores within
[0, 10]. -/
theorem exhaustion_score_formula_witness :
    0 ≤ calculate_exhaustion_score th0 (List.replicate 20 rowA) 100 ∧
    calculate_exhaustion_score th0 (List.replicate 20 rowA) 100 ≤ 10 := by
  have h := exhaustion_score_formula th0 (List.replicate 20 rowA) 100 (by simp) rowA
    (by simp [List.getLast?_replicate]) (by norm_num [rowA])
  exact ⟨h.2.1, h.2.2⟩
